import Mathlib

/-!
Verification of `brownant/pipeline/base.py` (`PipelineProperty`): the
keyword-argument classifier of `__init__`, the `get_attr` accessor, and the
lazy memoization protocol the class inherits.

Python dictionaries (`attr_names`, `options`, the target object's attribute
store) are embedded as partial maps `String → Option String`; keyword
arguments are embedded as an association list (Python guarantees the keys of
a `**kwargs` dict are pairwise distinct, which appears as a `Nodup`
hypothesis where a theorem needs it).
-/

/-- A Python dictionary / attribute store with string keys and values. -/
abbrev Dict := String → Option String

/-- The empty dictionary (`{}`). -/
def Dict.empty : Dict := fun _ => none

/-- Dictionary assignment `d[k] = v` (also models `setattr(self, k, v)`). -/
def Dict.insert (m : Dict) (k v : String) : Dict :=
  fun q => if q = k then some v else m q

/-- Python `name.endswith(post)`: the character sequence of `post` is a
suffix of the character sequence of `name`. -/
def endswith (name post : String) : Bool :=
  List.isSuffixOf post.data name.data

/-- The mutable state a `PipelineProperty.__init__` call builds up:
`attr_names` and `options` (lines 33 and 35 of base.py) plus the direct
instance attributes assigned by `setattr(self, name, value)` on line 46,
collected here in `fields`. -/
structure PipelineState where
  attr_names : Dict
  options : Dict
  fields : Dict

/-- The state right after lines 33–35: both dicts empty, no field set. -/
def emptyState : PipelineState :=
  { attr_names := Dict.empty, options := Dict.empty, fields := Dict.empty }

/-- One iteration of the classification loop, base.py lines 38–49: a key
ending in `_attr` goes to `attr_names`; otherwise a key in `required_attrs`
is assigned as a direct instance attribute; any other key goes to
`options`. -/
def classifyStep (required_attrs : List String) (s : PipelineState)
    (kv : String × String) : PipelineState :=
  if endswith kv.1 "_attr" then
    { s with attr_names := Dict.insert s.attr_names kv.1 kv.2 }
  else if kv.1 ∈ required_attrs then
    { s with fields := Dict.insert s.fields kv.1 kv.2 }
  else
    { s with options := Dict.insert s.options kv.1 kv.2 }

/-- The base-class `prepare` hook (base.py lines 56–70): a no-op that
subclasses may override. It runs after the classification and the
missing-attribute check. -/
def prepare (s : PipelineState) : PipelineState := s

/-- The message of the `TypeError` raised on line 52:
`"required attrs %r" % ", ".join(lacked_attrs)`. -/
def typeErrorMessage (lacked : List String) : String :=
  "required attrs " ++ "\x27" ++ String.intercalate ", " lacked ++ "\x27"

/-- `PipelineProperty.__init__` (base.py lines 26–54). Returns the state the
constructor has built together with `none` when it returns normally, or
`some lacked` when line 52 raises `TypeError` because the names `lacked`
of `required_attrs` are missing from the keyword arguments. The state is
returned in both cases because the raise on line 52 happens after the
classification loop has already run; on a raise the caller of the
constructor never receives the instance. -/
def pipelineInit (required_attrs : List String)
    (kwargs : List (String × String)) : PipelineState × Option (List String) :=
  let s := kwargs.foldl (classifyStep required_attrs) emptyState
  let assigned := kwargs.map Prod.fst
  let lacked := required_attrs.filter (fun r => decide (r ∉ assigned))
  if lacked.isEmpty then (prepare s, none) else (s, some lacked)

/-- The two ways `PipelineProperty.get_attr` can raise: `KeyError` from the
subscript `self.attr_names[name]` on line 80, and `AttributeError` from
`getattr(obj, attr_name)` on line 81. -/
inductive AttrError where
  | keyError (name : String)
  | attributeError (attrName : String)
deriving DecidableEq, Repr

/-- `PipelineProperty.get_attr` (base.py lines 72–81): look the internal
`name` up in `attr_names` (KeyError if unregistered), then read the
resulting attribute name off the target object `obj` (AttributeError if
`obj` has no such attribute). -/
def get_attr (s : PipelineState) (obj : Dict) (name : String) :
    Except AttrError String :=
  match s.attr_names name with
  | none => Except.error (AttrError.keyError name)
  | some attr_name =>
    match obj attr_name with
    | none => Except.error (AttrError.attributeError attr_name)
    | some value => Except.ok value

/-- Modelled from the spec: `PipelineProperty` inherits its lazy memoization
from `werkzeug.utils.cached_property` (imported on base.py line 1), whose
code is not part of this repository. Per spec §3, §4.3 and §7, a read first
consults the per-target-object cache slot; on a miss it invokes the
subclass-supplied `provide_value` and stores the result only on success,
propagating any raised error uncached. `cache` is the slot this descriptor
owns on one target object; `calls` counts `provide_value` invocations so
that the call-counting providers of spec §8 can be expressed. -/
structure LazyState (ε α : Type) where
  cache : Option α
  calls : Nat

/-- Modelled from the spec: a fresh target object has an empty cache slot
for the descriptor and has never invoked the provider. -/
def freshObj (ε α : Type) : LazyState ε α := { cache := none, calls := 0 }

/-- Modelled from the spec: one read of the lazily computed property.
`provide_value n` is the outcome of the provider's `n`-th invocation
(`Except.error` models a raise). Returns the outcome of the read together
with the target object's next state. -/
def cachedGet {ε α : Type} (provide_value : Nat → Except ε α)
    (s : LazyState ε α) : Except ε α × LazyState ε α :=
  match s.cache with
  | some v => (Except.ok v, s)
  | none =>
    match provide_value s.calls with
    | Except.ok v => (Except.ok v, { cache := some v, calls := s.calls + 1 })
    | Except.error e => (Except.error e, { s with calls := s.calls + 1 })

/-- Modelled from the spec: `n` successive reads of the property on one
target object, collecting each read's outcome. -/
def readN {ε α : Type} (provide_value : Nat → Except ε α)
    (s : LazyState ε α) : Nat → List (Except ε α) × LazyState ε α
  | 0 => ([], s)
  | n + 1 =>
    let r := cachedGet provide_value s
    let rest := readN provide_value r.2 n
    (r.1 :: rest.1, rest.2)

/-- Modelled from the spec: a world of two distinct target objects sharing
one descriptor; a read through the first object touches only the first
object's own slot. -/
def readFstObj {ε α : Type} (provide_value : Nat → Except ε α)
    (w : LazyState ε α × LazyState ε α) :
    Except ε α × (LazyState ε α × LazyState ε α) :=
  let r := cachedGet provide_value w.1
  (r.1, (r.2, w.2))

/-- C5: with a logical name registered in `attr_names` to a literal field
name that exists on the target object, `get_attr` returns that field's
value. -/
theorem get_attr_resolves (s : PipelineState) (obj : Dict)
    (name attr_name v : String) (hreg : s.attr_names name = some attr_name)
    (hobj : obj attr_name = some v) :
    get_attr s obj name = Except.ok v := by
  simp [get_attr, hreg, hobj]

/-- Witness for C5, the spec's own example: logical name registered to the
literal field `body_text`, target object carrying `body_text = "hello"`. -/
theorem get_attr_resolves_witness :
    (Dict.insert Dict.empty "raw_content_attr" "body_text") "raw_content_attr"
        = some "body_text" ∧
    (Dict.insert Dict.empty "body_text" "hello") "body_text" = some "hello" ∧
    get_attr
        { attr_names := Dict.insert Dict.empty "raw_content_attr" "body_text",
          options := Dict.empty, fields := Dict.empty }
        (Dict.insert Dict.empty "body_text" "hello") "raw_content_attr"
      = Except.ok "hello" :=
  ⟨by decide, by decide,
    get_attr_resolves _ _ _ "body_text" "hello" (by decide) (by decide)⟩

/-- C6: asking `get_attr` for a logical name that was never registered in
`attr_names` raises `KeyError` (the spec's "unregistered logical name"
configuration error); no default value is returned. -/
theorem get_attr_unregistered (s : PipelineState) (obj : Dict) (name : String)
    (h : s.attr_names name = none) :
    get_attr s obj name = Except.error (AttrError.keyError name) := by
  unfold get_attr
  rw [h]

/-- Witness for C6 at a concrete unregistered name on the empty state. -/
theorem get_attr_unregistered_witness :
    emptyState.attr_names "raw_content_attr" = none ∧
    get_attr emptyState Dict.empty "raw_content_attr"
      = Except.error (AttrError.keyError "raw_content_attr") :=
  ⟨rfl, get_attr_unregistered emptyState Dict.empty "raw_content_attr" rfl⟩

/-- C7: when the literal field name registered under the logical name does
not exist on the target object, `get_attr` raises `AttributeError` carrying
that field name, propagated to the caller rather than recovered. -/
theorem get_attr_missing_field (s : PipelineState) (obj : Dict)
    (name attr_name : String) (hreg : s.attr_names name = some attr_name)
    (hobj : obj attr_name = none) :
    get_attr s obj name = Except.error (AttrError.attributeError attr_name) := by
  simp [get_attr, hreg, hobj]

/-- Witness for C7: the logical name resolves to `body_text` but the target
object has no `body_text` attribute. -/
theorem get_attr_missing_field_witness :
    (Dict.insert Dict.empty "raw_content_attr" "body_text") "raw_content_attr"
        = some "body_text" ∧
    Dict.empty "body_text" = none ∧
    get_attr
        { attr_names := Dict.insert Dict.empty "raw_content_attr" "body_text",
          options := Dict.empty, fields := Dict.empty }
        Dict.empty "raw_content_attr"
      = Except.error (AttrError.attributeError "body_text") :=
  ⟨by decide, rfl,
    get_attr_missing_field _ _ _ "body_text" (by decide) rfl⟩

/-- Reading the inserted key back gives the inserted value. -/
theorem Dict.insert_same (m : Dict) (k v : String) :
    Dict.insert m k v k = some v := by
  simp [Dict.insert]

/-- Reading any other key is unchanged by an insertion. -/
theorem Dict.insert_other (m : Dict) (k v q : String) (h : q ≠ k) :
    Dict.insert m k v q = m q := by
  simp [Dict.insert, h]

/-- One classification step only touches the key it classifies: lookups at
any other key are unchanged in all three destinations. -/
theorem classifyStep_preserve (required_attrs : List String)
    (s : PipelineState) (kv : String × String) (k : String) (h : k ≠ kv.1) :
    ((classifyStep required_attrs s kv).attr_names k = s.attr_names k) ∧
    ((classifyStep required_attrs s kv).fields k = s.fields k) ∧
    ((classifyStep required_attrs s kv).options k = s.options k) := by
  unfold classifyStep
  split
  · exact ⟨Dict.insert_other _ _ _ _ h, rfl, rfl⟩
  · split
    · exact ⟨rfl, Dict.insert_other _ _ _ _ h, rfl⟩
    · exact ⟨rfl, rfl, Dict.insert_other _ _ _ _ h⟩

/-- The whole classification loop leaves lookups at a key that never occurs
among the processed keyword arguments unchanged. -/
theorem foldl_classify_preserve (required_attrs : List String)
    (kwargs : List (String × String)) (s : PipelineState) (k : String)
    (h : ∀ kv ∈ kwargs, k ≠ kv.1) :
    ((kwargs.foldl (classifyStep required_attrs) s).attr_names k
        = s.attr_names k) ∧
    ((kwargs.foldl (classifyStep required_attrs) s).fields k = s.fields k) ∧
    ((kwargs.foldl (classifyStep required_attrs) s).options k
        = s.options k) := by
  induction kwargs generalizing s with
  | nil => exact ⟨rfl, rfl, rfl⟩
  | cons a t ih =>
    have ha := classifyStep_preserve required_attrs s a k
      (h a (List.mem_cons_self a t))
    have ht := ih (classifyStep required_attrs s a)
      (fun kv hkv => h kv (List.mem_cons_of_mem a hkv))
    simp only [List.foldl_cons]
    exact ⟨ht.1.trans ha.1, ht.2.1.trans ha.2.1, ht.2.2.trans ha.2.2⟩

/-- Heart of the classifier: with pairwise-distinct keys, a keyword
argument `(k, v)` lands exactly where the precedence order of base.py
lines 41–49 sends it, and the other two destinations keep their initial
lookup at `k`. -/
theorem foldl_classify_mem (required_attrs : List String)
    (kwargs : List (String × String)) (s : PipelineState) (k v : String)
    (hnd : (kwargs.map Prod.fst).Nodup) (hmem : (k, v) ∈ kwargs) :
    (endswith k "_attr" = true →
      (kwargs.foldl (classifyStep required_attrs) s).attr_names k = some v ∧
      (kwargs.foldl (classifyStep required_attrs) s).fields k = s.fields k ∧
      (kwargs.foldl (classifyStep required_attrs) s).options k
        = s.options k) ∧
    (endswith k "_attr" = false → k ∈ required_attrs →
      (kwargs.foldl (classifyStep required_attrs) s).fields k = some v ∧
      (kwargs.foldl (classifyStep required_attrs) s).attr_names k
        = s.attr_names k ∧
      (kwargs.foldl (classifyStep required_attrs) s).options k
        = s.options k) ∧
    (endswith k "_attr" = false → k ∉ required_attrs →
      (kwargs.foldl (classifyStep required_attrs) s).options k = some v ∧
      (kwargs.foldl (classifyStep required_attrs) s).attr_names k
        = s.attr_names k ∧
      (kwargs.foldl (classifyStep required_attrs) s).fields k
        = s.fields k) := by
  induction kwargs generalizing s with
  | nil => cases hmem
  | cons a t ih =>
    simp only [List.map_cons, List.nodup_cons] at hnd
    obtain ⟨hhead, hndt⟩ := hnd
    simp only [List.foldl_cons]
    rcases List.mem_cons.mp hmem with heq | htail
    · subst heq
      have hk' : ∀ kv ∈ t, k ≠ kv.1 := by
        intro kv hkv hke
        apply hhead
        show k ∈ List.map Prod.fst t
        rw [hke]
        exact List.mem_map_of_mem Prod.fst hkv
      have hpres := foldl_classify_preserve required_attrs t
        (classifyStep required_attrs s (k, v)) k hk'
      refine ⟨fun hsuf => ?_, fun hsuf hkr => ?_, fun hsuf hkr => ?_⟩
      · have hstep : (classifyStep required_attrs s (k, v)).attr_names k
              = some v ∧
            (classifyStep required_attrs s (k, v)).fields k = s.fields k ∧
            (classifyStep required_attrs s (k, v)).options k
              = s.options k := by
          simp [classifyStep, hsuf, Dict.insert]
        exact ⟨hpres.1.trans hstep.1, hpres.2.1.trans hstep.2.1,
          hpres.2.2.trans hstep.2.2⟩
      · have hstep : (classifyStep required_attrs s (k, v)).fields k
              = some v ∧
            (classifyStep required_attrs s (k, v)).attr_names k
              = s.attr_names k ∧
            (classifyStep required_attrs s (k, v)).options k
              = s.options k := by
          simp [classifyStep, hsuf, hkr, Dict.insert]
        exact ⟨hpres.2.1.trans hstep.1, hpres.1.trans hstep.2.1,
          hpres.2.2.trans hstep.2.2⟩
      · have hstep : (classifyStep required_attrs s (k, v)).options k
              = some v ∧
            (classifyStep required_attrs s (k, v)).attr_names k
              = s.attr_names k ∧
            (classifyStep required_attrs s (k, v)).fields k
              = s.fields k := by
          simp [classifyStep, hsuf, hkr, Dict.insert]
        exact ⟨hpres.2.2.trans hstep.1, hpres.1.trans hstep.2.1,
          hpres.2.1.trans hstep.2.2⟩
    · have hk1 : k ≠ a.1 := by
        intro hke
        exact hhead (hke ▸ List.mem_map_of_mem Prod.fst htail)
      have ha := classifyStep_preserve required_attrs s a k hk1
      have iht := ih (classifyStep required_attrs s a) hndt htail
      refine ⟨fun hsuf => ?_, fun hsuf hkr => ?_, fun hsuf hkr => ?_⟩
      · obtain ⟨h1, h2, h3⟩ := iht.1 hsuf
        exact ⟨h1, h2.trans ha.2.1, h3.trans ha.2.2⟩
      · obtain ⟨h1, h2, h3⟩ := iht.2.1 hsuf hkr
        exact ⟨h1, h2.trans ha.1, h3.trans ha.2.2⟩
      · obtain ⟨h1, h2, h3⟩ := iht.2.2 hsuf hkr
        exact ⟨h1, h2.trans ha.1, h3.trans ha.2.1⟩

/-- The lacked-attribute list of base.py line 50 is empty exactly when
every required name occurs among the keyword-argument keys. -/
theorem lacked_isEmpty_iff (required_attrs : List String)
    (kwargs : List (String × String)) :
    (required_attrs.filter
        (fun r => decide (r ∉ kwargs.map Prod.fst))).isEmpty = true ↔
      ∀ r ∈ required_attrs, r ∈ kwargs.map Prod.fst := by
  rw [List.isEmpty_iff, List.filter_eq_nil_iff]
  simp

/-- When every required attribute is supplied, `__init__` returns normally
and its final state is the fully classified state. -/
theorem pipelineInit_success (required_attrs : List String)
    (kwargs : List (String × String))
    (h : ∀ r ∈ required_attrs, r ∈ kwargs.map Prod.fst) :
    pipelineInit required_attrs kwargs
      = (kwargs.foldl (classifyStep required_attrs) emptyState, none) := by
  unfold pipelineInit
  rw [if_pos ((lacked_isEmpty_iff required_attrs kwargs).mpr h)]
  rfl

/-- When some required attribute is missing, `__init__` raises `TypeError`
carrying the lacked names, and the state at the raise is the state the
classification loop has already fully built. -/
theorem pipelineInit_failure (required_attrs : List String)
    (kwargs : List (String × String))
    (h : ∃ r ∈ required_attrs, r ∉ kwargs.map Prod.fst) :
    pipelineInit required_attrs kwargs
      = (kwargs.foldl (classifyStep required_attrs) emptyState,
          some (required_attrs.filter
            (fun r => decide (r ∉ kwargs.map Prod.fst)))) := by
  have hne : ¬ ((required_attrs.filter
      (fun r => decide (r ∉ kwargs.map Prod.fst))).isEmpty = true) := by
    intro hemp
    obtain ⟨r, hr, hnr⟩ := h
    exact hnr ((lacked_isEmpty_iff required_attrs kwargs).mp hemp r hr)
  unfold pipelineInit
  rw [if_neg hne]

/-- Membership in the lacked list of base.py line 50: exactly the required
names absent from the keyword-argument keys. -/
theorem mem_lacked_iff (required_attrs : List String)
    (kwargs : List (String × String)) (r : String) :
    r ∈ required_attrs.filter (fun x => decide (x ∉ kwargs.map Prod.fst)) ↔
      r ∈ required_attrs ∧ r ∉ kwargs.map Prod.fst := by
  rw [List.mem_filter]
  simp

/-- C1: when every required name is supplied, construction succeeds and
each keyword argument is routed to exactly one destination by the fixed
precedence of base.py lines 41–49: keys ending in `_attr` into
`attr_names`; otherwise keys in `required_attrs` to direct instance
fields; all other keys into `options` — with the other two destinations
untouched at that key, so the classification is deterministic, exhaustive
and mutually exclusive. -/
theorem init_classification (required_attrs : List String)
    (kwargs : List (String × String))
    (hnd : (kwargs.map Prod.fst).Nodup)
    (hreq : ∀ r ∈ required_attrs, r ∈ kwargs.map Prod.fst) :
    (pipelineInit required_attrs kwargs).2 = none ∧
    ∀ k v, (k, v) ∈ kwargs →
      (endswith k "_attr" = true →
        (pipelineInit required_attrs kwargs).1.attr_names k = some v ∧
        (pipelineInit required_attrs kwargs).1.fields k = none ∧
        (pipelineInit required_attrs kwargs).1.options k = none) ∧
      (endswith k "_attr" = false → k ∈ required_attrs →
        (pipelineInit required_attrs kwargs).1.fields k = some v ∧
        (pipelineInit required_attrs kwargs).1.attr_names k = none ∧
        (pipelineInit required_attrs kwargs).1.options k = none) ∧
      (endswith k "_attr" = false → k ∉ required_attrs →
        (pipelineInit required_attrs kwargs).1.options k = some v ∧
        (pipelineInit required_attrs kwargs).1.attr_names k = none ∧
        (pipelineInit required_attrs kwargs).1.fields k = none) := by
  rw [pipelineInit_success required_attrs kwargs hreq]
  exact ⟨rfl, fun k v hmem =>
    foldl_classify_mem required_attrs kwargs emptyState k v hnd hmem⟩

/-- Witness for C1: required name `url`, one `_attr` key, one option key. -/
theorem init_classification_witness :
    (([("url", "u"), ("x_attr", "y"), ("opt", "z")].map Prod.fst).Nodup) ∧
    (∀ r ∈ ["url"],
      r ∈ [("url", "u"), ("x_attr", "y"), ("opt", "z")].map Prod.fst) ∧
    ((pipelineInit ["url"] [("url", "u"), ("x_attr", "y"), ("opt", "z")]).2
        = none ∧
      ∀ k v, (k, v) ∈ [("url", "u"), ("x_attr", "y"), ("opt", "z")] →
        (endswith k "_attr" = true →
          (pipelineInit ["url"]
            [("url", "u"), ("x_attr", "y"), ("opt", "z")]).1.attr_names k
              = some v ∧
          (pipelineInit ["url"]
            [("url", "u"), ("x_attr", "y"), ("opt", "z")]).1.fields k
              = none ∧
          (pipelineInit ["url"]
            [("url", "u"), ("x_attr", "y"), ("opt", "z")]).1.options k
              = none) ∧
        (endswith k "_attr" = false → k ∈ ["url"] →
          (pipelineInit ["url"]
            [("url", "u"), ("x_attr", "y"), ("opt", "z")]).1.fields k
              = some v ∧
          (pipelineInit ["url"]
            [("url", "u"), ("x_attr", "y"), ("opt", "z")]).1.attr_names k
              = none ∧
          (pipelineInit ["url"]
            [("url", "u"), ("x_attr", "y"), ("opt", "z")]).1.options k
              = none) ∧
        (endswith k "_attr" = false → k ∉ ["url"] →
          (pipelineInit ["url"]
            [("url", "u"), ("x_attr", "y"), ("opt", "z")]).1.options k
              = some v ∧
          (pipelineInit ["url"]
            [("url", "u"), ("x_attr", "y"), ("opt", "z")]).1.attr_names k
              = none ∧
          (pipelineInit ["url"]
            [("url", "u"), ("x_attr", "y"), ("opt", "z")]).1.fields k
              = none)) :=
  ⟨by decide, by decide,
    init_classification ["url"] [("url", "u"), ("x_attr", "y"), ("opt", "z")]
      (by decide) (by decide)⟩

/-- C2: when one or more required names are missing from the keyword
arguments, construction raises a `TypeError` whose payload lists exactly
the missing required names — every one of them, not a subset. -/
theorem init_missing_required (required_attrs : List String)
    (kwargs : List (String × String))
    (h : ∃ r ∈ required_attrs, r ∉ kwargs.map Prod.fst) :
    ∃ lacked, (pipelineInit required_attrs kwargs).2 = some lacked ∧
      lacked ≠ [] ∧
      ∀ r, r ∈ lacked ↔ (r ∈ required_attrs ∧ r ∉ kwargs.map Prod.fst) := by
  refine ⟨required_attrs.filter (fun r => decide (r ∉ kwargs.map Prod.fst)),
    by rw [pipelineInit_failure required_attrs kwargs h], ?_,
    fun r => mem_lacked_iff required_attrs kwargs r⟩
  obtain ⟨r, hr, hnr⟩ := h
  exact List.ne_nil_of_mem
    ((mem_lacked_iff required_attrs kwargs r).mpr ⟨hr, hnr⟩)

/-- Witness for C2: of the required names `a`, `b`, `c` only `b` is
supplied, so the failure lists `a` and `c`. -/
theorem init_missing_required_witness :
    (∃ r ∈ ["a", "b", "c"], r ∉ [("b", "1")].map Prod.fst) ∧
    (∃ lacked, (pipelineInit ["a", "b", "c"] [("b", "1")]).2 = some lacked ∧
      lacked ≠ [] ∧
      ∀ r, r ∈ lacked ↔
        (r ∈ ["a", "b", "c"] ∧ r ∉ [("b", "1")].map Prod.fst)) :=
  ⟨by decide, init_missing_required ["a", "b", "c"] [("b", "1")] (by decide)⟩

/-- C8 counterexample: with `required_attrs = {"a", "b"}` and keyword
arguments `a="1", x_attr="v", opt="o"`, construction raises (`b` is
missing), yet at the point of the raise the constructor has already
assigned the direct instance field `a`, registered `x_attr` in
`attr_names` and stored `opt` in `options` — refuting "it fails before any
attribute is assigned ... populates no entry of attr_names or options". -/
theorem init_not_atomic_cex :
    (pipelineInit ["a", "b"]
        [("a", "1"), ("x_attr", "v"), ("opt", "o")]).2 = some ["b"] ∧
    (pipelineInit ["a", "b"]
        [("a", "1"), ("x_attr", "v"), ("opt", "o")]).1.fields "a"
      = some "1" ∧
    (pipelineInit ["a", "b"]
        [("a", "1"), ("x_attr", "v"), ("opt", "o")]).1.attr_names "x_attr"
      = some "v" ∧
    (pipelineInit ["a", "b"]
        [("a", "1"), ("x_attr", "v"), ("opt", "o")]).1.options "opt"
      = some "o" := by
  decide

/-- C8 (amended): construction fails exactly when some required name is
missing from the keyword arguments; the `TypeError` is raised only at the
end of `__init__`, after the classification loop has populated the
instance, but the raise prevents the constructor from returning, so the
caller never obtains a descriptor lacking a required attribute. -/
theorem init_fails_iff_missing (required_attrs : List String)
    (kwargs : List (String × String)) :
    (pipelineInit required_attrs kwargs).2.isSome = true ↔
      ∃ r ∈ required_attrs, r ∉ kwargs.map Prod.fst := by
  constructor
  · intro hsome
    by_contra hnone
    push_neg at hnone
    rw [pipelineInit_success required_attrs kwargs hnone] at hsome
    simp at hsome
  · intro h
    rw [pipelineInit_failure required_attrs kwargs h]
    rfl

/-- C9 counterexample: with `required_attrs = {"a_attr"}` and the keyword
argument `a_attr="v"`, construction succeeds and the key is in
`required_attrs`, yet no direct instance field `a_attr` is assigned — the
value lands in `attr_names` because the `_attr` suffix rule fires first —
refuting "each keyword argument whose name is in required_attrs becomes a
direct instance field ... stored neither in options nor in attr_names". -/
theorem required_key_not_field_cex :
    (pipelineInit ["a_attr"] [("a_attr", "v")]).2 = none ∧
    (pipelineInit ["a_attr"] [("a_attr", "v")]).1.fields "a_attr" = none ∧
    (pipelineInit ["a_attr"] [("a_attr", "v")]).1.options "a_attr" = none ∧
    (pipelineInit ["a_attr"] [("a_attr", "v")]).1.attr_names "a_attr"
      = some "v" := by
  decide

/-- C9 (amended): for every successful construction, each keyword argument
whose name is in `required_attrs` and does not end in `_attr` becomes a
direct instance field, and its value is stored neither in `options` nor in
`attr_names`. -/
theorem required_nonsuffix_becomes_field (required_attrs : List String)
    (kwargs : List (String × String))
    (hnd : (kwargs.map Prod.fst).Nodup)
    (hreq : ∀ r ∈ required_attrs, r ∈ kwargs.map Prod.fst)
    (k v : String) (hmem : (k, v) ∈ kwargs)
    (hsuf : endswith k "_attr" = false) (hkr : k ∈ required_attrs) :
    (pipelineInit required_attrs kwargs).2 = none ∧
    (pipelineInit required_attrs kwargs).1.fields k = some v ∧
    (pipelineInit required_attrs kwargs).1.attr_names k = none ∧
    (pipelineInit required_attrs kwargs).1.options k = none := by
  rw [pipelineInit_success required_attrs kwargs hreq]
  exact ⟨rfl,
    (foldl_classify_mem required_attrs kwargs emptyState k v hnd hmem).2.1
      hsuf hkr⟩

/-- Witness for the amended C9: required name `url`, supplied along with an
unrelated option. -/
theorem required_nonsuffix_becomes_field_witness :
    (([("url", "u"), ("t", "1")].map Prod.fst).Nodup) ∧
    (∀ r ∈ ["url"], r ∈ [("url", "u"), ("t", "1")].map Prod.fst) ∧
    (("url", "u") ∈ [("url", "u"), ("t", "1")]) ∧
    (endswith "url" "_attr" = false) ∧
    ("url" ∈ ["url"]) ∧
    ((pipelineInit ["url"] [("url", "u"), ("t", "1")]).2 = none ∧
      (pipelineInit ["url"] [("url", "u"), ("t", "1")]).1.fields "url"
        = some "u" ∧
      (pipelineInit ["url"] [("url", "u"), ("t", "1")]).1.attr_names "url"
        = none ∧
      (pipelineInit ["url"] [("url", "u"), ("t", "1")]).1.options "url"
        = none) :=
  ⟨by decide, by decide, by decide, by decide, by decide,
    required_nonsuffix_becomes_field ["url"] [("url", "u"), ("t", "1")]
      (by decide) (by decide) "url" "u" (by decide) (by decide) (by decide)⟩

/-- C10: a required name that itself ends in `_attr`, when supplied as a
keyword argument, satisfies the missing-required check (construction
succeeds), but its value is stored in `attr_names` under that name and no
direct instance field of that name is assigned. -/
theorem required_suffix_into_attr_names (required_attrs : List String)
    (kwargs : List (String × String))
    (hnd : (kwargs.map Prod.fst).Nodup)
    (hreq : ∀ r ∈ required_attrs, r ∈ kwargs.map Prod.fst)
    (r v : String) (hr : r ∈ required_attrs)
    (hsuf : endswith r "_attr" = true) (hmem : (r, v) ∈ kwargs) :
    (pipelineInit required_attrs kwargs).2 = none ∧
    (pipelineInit required_attrs kwargs).1.attr_names r = some v ∧
    (pipelineInit required_attrs kwargs).1.fields r = none := by
  rw [pipelineInit_success required_attrs kwargs hreq]
  have h :=
    (foldl_classify_mem required_attrs kwargs emptyState r v hnd hmem).1 hsuf
  exact ⟨rfl, h.1, h.2.1⟩

/-- Witness for C10: the single required name `x_attr` is supplied; the
lacked check passes and the value lands in `attr_names`. -/
theorem required_suffix_into_attr_names_witness :
    (([("x_attr", "f")].map Prod.fst).Nodup) ∧
    (∀ r ∈ ["x_attr"], r ∈ [("x_attr", "f")].map Prod.fst) ∧
    ("x_attr" ∈ ["x_attr"]) ∧
    (endswith "x_attr" "_attr" = true) ∧
    (("x_attr", "f") ∈ [("x_attr", "f")]) ∧
    ((pipelineInit ["x_attr"] [("x_attr", "f")]).2 = none ∧
      (pipelineInit ["x_attr"] [("x_attr", "f")]).1.attr_names "x_attr"
        = some "f" ∧
      (pipelineInit ["x_attr"] [("x_attr", "f")]).1.fields "x_attr"
        = none) :=
  ⟨by decide, by decide, by decide, by decide, by decide,
    required_suffix_into_attr_names ["x_attr"] [("x_attr", "f")]
      (by decide) (by decide) "x_attr" "f" (by decide) (by decide)
      (by decide)⟩

/-- Reads from a target object whose slot is already filled return the
cached value and never change the state. -/
theorem readN_cached {ε α : Type} (provide_value : Nat → Except ε α)
    (s : LazyState ε α) (v : α) (hs : s.cache = some v) (n : Nat) :
    readN provide_value s n = (List.replicate n (Except.ok v), s) := by
  induction n with
  | zero => rfl
  | succ m ih =>
    have hget : cachedGet provide_value s = (Except.ok v, s) := by
      unfold cachedGet
      rw [hs]
    simp [readN, hget, ih, List.replicate_succ]

/-- C3: when the provider's first invocation yields a value, any `n ≥ 1`
reads on one fresh target object invoke `provide_value` exactly once,
every read returns that first value, the slot holds it, and a read through
one target object leaves the other target object's slot untouched. -/
theorem lazy_compute_once {ε α : Type} (provide_value : Nat → Except ε α)
    (v : α) (n : Nat) (hp : provide_value 0 = Except.ok v) (hn : 1 ≤ n) :
    ((readN provide_value (freshObj ε α) n).2.calls = 1) ∧
    (∀ r ∈ (readN provide_value (freshObj ε α) n).1, r = Except.ok v) ∧
    ((readN provide_value (freshObj ε α) n).2.cache = some v) ∧
    (∀ w : LazyState ε α × LazyState ε α,
      (readFstObj provide_value w).2.2 = w.2) := by
  obtain ⟨m, rfl⟩ : ∃ m, n = m + 1 := by
    cases n with
    | zero => exact absurd hn (by decide)
    | succ m => exact ⟨m, rfl⟩
  have hget : cachedGet provide_value (freshObj ε α)
      = (Except.ok v, { cache := some v, calls := 1 }) := by
    unfold cachedGet freshObj
    rw [hp]
  have hrest := readN_cached provide_value
    ({ cache := some v, calls := 1 } : LazyState ε α) v rfl m
  have hall : readN provide_value (freshObj ε α) (m + 1)
      = (Except.ok v :: List.replicate m (Except.ok v),
          { cache := some v, calls := 1 }) := by
    simp [readN, hget, hrest]
  refine ⟨by rw [hall], ?_, by rw [hall], fun w => rfl⟩
  rw [hall]
  intro r hr
  rcases List.mem_cons.mp hr with h | h
  · exact h
  · exact List.eq_of_mem_replicate h

/-- Witness for C3: a provider that always yields `7`, read three times on
a fresh target object. -/
theorem lazy_compute_once_witness :
    ((fun _ : Nat => (Except.ok 7 : Except String Nat)) 0 = Except.ok 7) ∧
    (1 ≤ 3) ∧
    (((readN (fun _ : Nat => (Except.ok 7 : Except String Nat))
        (freshObj String Nat) 3).2.calls = 1) ∧
      (∀ r ∈ (readN (fun _ : Nat => (Except.ok 7 : Except String Nat))
          (freshObj String Nat) 3).1, r = Except.ok 7) ∧
      ((readN (fun _ : Nat => (Except.ok 7 : Except String Nat))
          (freshObj String Nat) 3).2.cache = some 7) ∧
      (∀ w : LazyState String Nat × LazyState String Nat,
        (readFstObj (fun _ : Nat => (Except.ok 7 : Except String Nat))
            w).2.2 = w.2)) :=
  ⟨rfl, by decide,
    lazy_compute_once (fun _ : Nat => (Except.ok 7 : Except String Nat)) 7 3
      rfl (by decide)⟩

/-- C4: when the provider raises on its first invocation, the first read
propagates exactly that error and caches nothing; a second read invokes
the provider again (two invocations in total, whatever the second
outcome), and if the second invocation yields a value the second read
returns and caches it — only successful computations are memoized. -/
theorem provider_error_not_cached {ε α : Type}
    (provide_value : Nat → Except ε α) (e : ε)
    (hp : provide_value 0 = Except.error e) :
    ((cachedGet provide_value (freshObj ε α)).1 = Except.error e) ∧
    ((cachedGet provide_value (freshObj ε α)).2.cache = none) ∧
    ((cachedGet provide_value
        (cachedGet provide_value (freshObj ε α)).2).2.calls = 2) ∧
    (∀ v, provide_value 1 = Except.ok v →
      (cachedGet provide_value
          (cachedGet provide_value (freshObj ε α)).2).1 = Except.ok v ∧
      (cachedGet provide_value
          (cachedGet provide_value (freshObj ε α)).2).2.cache = some v) := by
  have h1 : cachedGet provide_value (freshObj ε α)
      = (Except.error e, { cache := none, calls := 1 }) := by
    unfold cachedGet freshObj
    rw [hp]
  rw [h1]
  refine ⟨rfl, rfl, ?_, ?_⟩
  · rcases h2 : provide_value 1 with e2 | v2 <;>
      simp [cachedGet, h2]
  · intro v hv
    simp [cachedGet, hv]

/-- Witness for C4: a provider that raises on its first invocation and
yields `5` on its second. -/
theorem provider_error_not_cached_witness :
    ((fun n : Nat => if n = 0 then (Except.error "boom" : Except String Nat)
        else Except.ok 5) 0 = Except.error "boom") ∧
    (((cachedGet (fun n : Nat =>
          if n = 0 then (Except.error "boom" : Except String Nat)
          else Except.ok 5) (freshObj String Nat)).1
        = Except.error "boom") ∧
      ((cachedGet (fun n : Nat =>
          if n = 0 then (Except.error "boom" : Except String Nat)
          else Except.ok 5) (freshObj String Nat)).2.cache = none) ∧
      ((cachedGet (fun n : Nat =>
            if n = 0 then (Except.error "boom" : Except String Nat)
            else Except.ok 5)
          (cachedGet (fun n : Nat =>
            if n = 0 then (Except.error "boom" : Except String Nat)
            else Except.ok 5) (freshObj String Nat)).2).2.calls = 2) ∧
      (∀ v, (fun n : Nat =>
            if n = 0 then (Except.error "boom" : Except String Nat)
            else Except.ok 5) 1 = Except.ok v →
        (cachedGet (fun n : Nat =>
              if n = 0 then (Except.error "boom" : Except String Nat)
              else Except.ok 5)
            (cachedGet (fun n : Nat =>
              if n = 0 then (Except.error "boom" : Except String Nat)
              else Except.ok 5) (freshObj String Nat)).2).1
            = Except.ok v ∧
        (cachedGet (fun n : Nat =>
              if n = 0 then (Except.error "boom" : Except String Nat)
              else Except.ok 5)
            (cachedGet (fun n : Nat =>
              if n = 0 then (Except.error "boom" : Except String Nat)
              else Except.ok 5) (freshObj String Nat)).2).2.cache
            = some v)) :=
  ⟨rfl,
    provider_error_not_cached (fun n : Nat =>
      if n = 0 then (Except.error "boom" : Except String Nat)
      else Except.ok 5) "boom" rfl⟩
